import Mathlib

/-!
Verification of the `qpidfile` library (src/lib.rs).

The library exposes a single type `Pidfile` holding a path (`fname`).
`Pidfile::new(fname)` runs `File::create(fname)` (create-or-truncate),
formats the current process id in decimal (`format!("{}", process::id())`)
and writes those bytes with `write_all`.  The `Drop` impl calls
`std::fs::remove_file(&self.fname)` once and, on error, prints a
diagnostic to stderr (`eprintln!`) without propagating anything.

We embed the filesystem interaction shallowly: a `World` records the file
contents at each path, booleans saying whether an open-for-write, a write,
or a removal at each path is permitted by the OS, and a log of the syscall
attempts made.  Each operation threads the `World` explicitly; fallible
operations return `Except`.  Stderr output of `drop` is returned as a list
of messages.
-/

namespace Qpidfile

/-- Kinds of I/O errors that the modelled syscalls can produce. -/
inductive IOErr where
  | openFailed
  | writeFailed
  | notFound
  | removeDenied
deriving DecidableEq, Repr

/-- Syscall attempts, logged so that "exactly one attempt" claims are statable. -/
inductive Event where
  | openAttempt (path : String)
  | writeAttempt (path : String)
  | removeAttempt (path : String)
deriving DecidableEq, Repr

/-- The state of the outside world: file contents (as character lists),
OS permissions for each kind of syscall at each path, and the log of
syscall attempts made so far. -/
structure World where
  files : String → Option (List Char)
  openOk : String → Bool
  writeOk : String → Bool
  removeOk : String → Bool
  log : List Event

/-- Replace the content recorded at one path. -/
def setFile (w : World) (p : String) (v : Option (List Char)) : World :=
  { w with files := fun q => if q = p then v else w.files q }

/-- Model of `std::fs::File::create`: creates the file if absent,
truncates it to empty if present; fails if the OS refuses the open. -/
def fileCreate (w : World) (path : String) : World × Except IOErr Unit :=
  let wl := { w with log := w.log ++ [Event.openAttempt path] }
  if w.openOk path then
    (setFile wl path (some []), Except.ok ())
  else
    (wl, Except.error IOErr.openFailed)

/-- Model of `Write::write_all` on the freshly created file: replaces the
content with the given bytes, or fails leaving the truncated file. -/
def writeAll (w : World) (path : String) (content : List Char) :
    World × Except IOErr Unit :=
  let wl := { w with log := w.log ++ [Event.writeAttempt path] }
  if w.writeOk path then
    (setFile wl path (some content), Except.ok ())
  else
    (wl, Except.error IOErr.writeFailed)

/-- Model of `std::fs::remove_file`: errors with `notFound` when the file
is absent, with `removeDenied` when the OS refuses; otherwise removes. -/
def removeFile (w : World) (path : String) : World × Except IOErr Unit :=
  let wl := { w with log := w.log ++ [Event.removeAttempt path] }
  match w.files path with
  | none => (wl, Except.error IOErr.notFound)
  | some _ =>
    if w.removeOk path then
      (setFile wl path none, Except.ok ())
    else
      (wl, Except.error IOErr.removeDenied)

/-- The platform's message text for each error (as in `io::Error`'s Display). -/
def ioErrMsg : IOErr → String
  | IOErr.openFailed => "Permission denied"
  | IOErr.writeFailed => "Write failed"
  | IOErr.notFound => "No such file or directory"
  | IOErr.removeDenied => "Permission denied"

/-- `pub struct Pidfile { fname: PathBuf }` -/
structure Pidfile where
  fname : String
deriving DecidableEq, Repr

/-- Digit-extraction loop of decimal formatting, with explicit fuel so
the definition is structural (any fuel above the number works, see
`decDigitsGo_congr`). -/
def decDigitsGo : Nat → Nat → List Char
  | 0, _ => []
  | fuel + 1, n =>
    if n < 10 then [Nat.digitChar n]
    else decDigitsGo fuel (n / 10) ++ [Nat.digitChar (n % 10)]

/-- Decimal formatting of a natural number, the algorithm behind
`format!("{}", n)` for an unsigned integer: most-significant digit first,
no sign, no padding, `0` prints as `"0"`. -/
def decDigits (n : Nat) : List Char := decDigitsGo (n + 1) n

theorem decDigitsGo_congr (f1 : Nat) :
    ∀ (f2 n : Nat), n < f1 → n < f2 → decDigitsGo f1 n = decDigitsGo f2 n := by
  induction f1 with
  | zero => omega
  | succ f1 ih =>
    intro f2 n h1 h2
    cases f2 with
    | zero => omega
    | succ f2 =>
      by_cases h : n < 10
      · simp [decDigitsGo, h]
      · simp only [decDigitsGo, if_neg h]
        have hlt : n / 10 < n := Nat.div_lt_self (by omega) (by omega)
        rw [ih f2 (n / 10) (by omega) (by omega)]

/-- The recurrence the Rust formatting loop satisfies. -/
theorem decDigits_eq (n : Nat) :
    decDigits n = if n < 10 then [Nat.digitChar n]
      else decDigits (n / 10) ++ [Nat.digitChar (n % 10)] := by
  show decDigitsGo (n + 1) n = _
  by_cases h : n < 10
  · simp [decDigitsGo, h]
  · simp only [decDigitsGo, if_neg h]
    have hlt : n / 10 < n := Nat.div_lt_self (by omega) (by omega)
    rw [decDigitsGo_congr n (n / 10 + 1) (n / 10) (by omega) (by omega)]
    rfl

/-- `Pidfile::new`: `File::create(fname)?`, format the pid, `write_all?`,
then return the handle holding the path. -/
def pidfileNew (w : World) (path : String) (pid : Nat) :
    World × Except IOErr Pidfile :=
  match fileCreate w path with
  | (w1, Except.error e) => (w1, Except.error e)
  | (w1, Except.ok _) =>
    match writeAll w1 path (decDigits pid) with
    | (w2, Except.error e) => (w2, Except.error e)
    | (w2, Except.ok _) => (w2, Except.ok { fname := path })

/-- `Drop for Pidfile`: one `remove_file` attempt; on error an `eprintln!`
diagnostic (returned here as the list of stderr lines); never an error. -/
def pidfileDrop (w : World) (h : Pidfile) : World × List String :=
  match removeFile w h.fname with
  | (w1, Except.ok _) => (w1, [])
  | (w1, Except.error e) =>
    (w1, ["Unable to remove pidfile " ++ h.fname ++ "; " ++ ioErrMsg e])

/-- A character is an ASCII decimal digit. -/
def isDecDigitB (c : Char) : Bool :=
  48 ≤ c.toNat && c.toNat ≤ 57

/-- Reading a digit string back as a number (digits are most-significant
first). -/
def ofDecDigits (cs : List Char) : Nat :=
  cs.foldl (fun a c => a * 10 + (c.toNat - 48)) 0

theorem digitChar_isDigit (d : Nat) (hd : d < 10) :
    isDecDigitB (Nat.digitChar d) = true := by
  interval_cases d <;> decide

theorem digitChar_toNat (d : Nat) (hd : d < 10) :
    (Nat.digitChar d).toNat - 48 = d := by
  interval_cases d <;> decide

theorem digitChar_ne_zero (d : Nat) (hd : d < 10) (hz : d ≠ 0) :
    Nat.digitChar d ≠ '0' := by
  interval_cases d <;> simp_all <;> decide

theorem decDigits_ne_nil (n : Nat) : decDigits n ≠ [] := by
  rw [decDigits_eq]
  split <;> simp

theorem decDigits_all_digit (n : Nat) :
    ∀ c ∈ decDigits n, isDecDigitB c = true := by
  induction n using Nat.strong_induction_on with
  | _ n ih =>
    rw [decDigits_eq]
    split
    · intro c hc
      simp only [List.mem_singleton] at hc
      subst hc
      exact digitChar_isDigit n (by omega)
    · intro c hc
      rw [List.mem_append] at hc
      rcases hc with hc | hc
      · exact ih (n / 10) (Nat.div_lt_self (by omega) (by omega)) c hc
      · simp only [List.mem_singleton] at hc
        subst hc
        exact digitChar_isDigit (n % 10) (Nat.mod_lt _ (by omega))

theorem ofDecDigits_decDigits (n : Nat) : ofDecDigits (decDigits n) = n := by
  induction n using Nat.strong_induction_on with
  | _ n ih =>
    rw [decDigits_eq]
    split
    · rename_i h
      show 0 * 10 + ((Nat.digitChar n).toNat - 48) = n
      rw [digitChar_toNat n h]
      omega
    · rename_i h
      show List.foldl (fun a c => a * 10 + (c.toNat - 48)) 0
        (decDigits (n / 10) ++ [Nat.digitChar (n % 10)]) = n
      rw [List.foldl_append]
      show ofDecDigits (decDigits (n / 10)) * 10 +
        ((Nat.digitChar (n % 10)).toNat - 48) = n
      rw [ih (n / 10) (Nat.div_lt_self (by omega) (by omega))]
      rw [digitChar_toNat (n % 10) (Nat.mod_lt _ (by omega))]
      omega

theorem decDigits_head_ne_zero (n : Nat) (hn : n ≠ 0) :
    (decDigits n).head? ≠ some '0' := by
  induction n using Nat.strong_induction_on with
  | _ n ih =>
    rw [decDigits_eq]
    split
    · rename_i h
      simp only [List.head?_cons, ne_eq, Option.some.injEq]
      exact digitChar_ne_zero n h hn
    · rename_i h
      obtain ⟨c, cs, hcons⟩ :=
        List.exists_cons_of_ne_nil (decDigits_ne_nil (n / 10))
      have hhd := ih (n / 10) (Nat.div_lt_self (by omega) (by omega)) (by omega)
      rw [hcons] at hhd ⊢
      simpa using hhd

theorem decDigits_zero : decDigits 0 = ['0'] := by
  rfl

/-! Concrete worlds used by witnesses. -/

/-- A world with no files and every syscall permitted. -/
def allowAll : World :=
  { files := fun _ => none, openOk := fun _ => true, writeOk := fun _ => true,
    removeOk := fun _ => true, log := [] }

/-- A world where `stale.pid` already holds nine `9` characters. -/
def worldStale : World :=
  { allowAll with
    files := fun q => if q = "stale.pid" then some "999999999".toList else none }

/-- A world where no path can be opened for writing. -/
def worldNoDir : World :=
  { allowAll with openOk := fun _ => false }

/-- A world where opening succeeds but every write fails. -/
def worldNoWrite : World :=
  { allowAll with writeOk := fun _ => false }

/-! Helper lemmas about the operations. -/

theorem pidfileNew_ok_facts (w : World) (path : String) (pid : Nat)
    (hf : Pidfile) (h : (pidfileNew w path pid).2 = Except.ok hf) :
    w.openOk path = true ∧ w.writeOk path = true ∧ hf.fname = path ∧
    ((pidfileNew w path pid).1).files path = some (decDigits pid) ∧
    (∀ q, q ≠ path → ((pidfileNew w path pid).1).files q = w.files q) ∧
    ((pidfileNew w path pid).1).removeOk = w.removeOk ∧
    ((pidfileNew w path pid).1).log =
      w.log ++ [Event.openAttempt path, Event.writeAttempt path] := by
  cases ho : w.openOk path with
  | false => exfalso; simp [pidfileNew, fileCreate, ho] at h
  | true =>
    cases hw : w.writeOk path with
    | false =>
      exfalso
      simp [pidfileNew, fileCreate, writeAll, setFile, ho, hw] at h
    | true =>
      simp only [pidfileNew, fileCreate, writeAll, setFile, ho, hw,
        if_true] at h
      have hfn : hf.fname = path := by cases h; rfl
      refine ⟨rfl, rfl, hfn, ?_, ?_, ?_, ?_⟩
      · simp [pidfileNew, fileCreate, writeAll, setFile, ho, hw]
      · intro q hq
        simp [pidfileNew, fileCreate, writeAll, setFile, ho, hw, hq]
      · simp [pidfileNew, fileCreate, writeAll, setFile, ho, hw]
      · simp [pidfileNew, fileCreate, writeAll, setFile, ho, hw]

theorem pidfileDrop_log (w : World) (h : Pidfile) :
    ((pidfileDrop w h).1).log = w.log ++ [Event.removeAttempt h.fname] := by
  unfold pidfileDrop removeFile
  cases hfc : w.files h.fname with
  | none => rfl
  | some c =>
    by_cases hrm : w.removeOk h.fname <;> simp [setFile, hrm]

theorem pidfileDrop_stderr_error (w : World) (h : Pidfile) (e : IOErr)
    (he : (removeFile w h.fname).2 = Except.error e) :
    (pidfileDrop w h).2 =
      ["Unable to remove pidfile " ++ h.fname ++ "; " ++ ioErrMsg e] := by
  unfold pidfileDrop
  cases hrf : removeFile w h.fname with
  | mk w1 r =>
    rw [hrf] at he
    cases r with
    | ok u => exact absurd he (by simp)
    | error e1 => simp_all

theorem pidfileDrop_stderr_ok (w : World) (h : Pidfile)
    (he : (removeFile w h.fname).2 = Except.ok ()) :
    (pidfileDrop w h).2 = [] := by
  unfold pidfileDrop
  cases hrf : removeFile w h.fname with
  | mk w1 r =>
    rw [hrf] at he
    cases r with
    | ok u => rfl
    | error e1 => exact absurd he (by simp)

/-! The claims. -/

/-- C1: whenever `Pidfile::new` succeeds, the file at the target path
contains exactly the base-10 ASCII decimal representation of the process
id: every character is a decimal digit (hence no sign, no whitespace, no
newline), there is no leading zero, the digits read back as the pid, and
nothing else is in the file. -/
theorem new_writes_pid_decimal (w : World) (path : String) (pid : Nat)
    (hf : Pidfile) (h : (pidfileNew w path pid).2 = Except.ok hf) :
    ((pidfileNew w path pid).1).files path = some (decDigits pid) ∧
    (∀ c ∈ decDigits pid, isDecDigitB c = true) ∧
    ofDecDigits (decDigits pid) = pid ∧
    ((decDigits pid).head? = some '0' → decDigits pid = ['0']) ∧
    '\n' ∉ decDigits pid ∧ ' ' ∉ decDigits pid ∧
    '-' ∉ decDigits pid ∧ '+' ∉ decDigits pid := by
  obtain ⟨-, -, -, hfiles, -, -, -⟩ := pidfileNew_ok_facts w path pid hf h
  refine ⟨hfiles, decDigits_all_digit pid, ofDecDigits_decDigits pid,
    ?_, ?_, ?_, ?_, ?_⟩
  · intro hz
    by_cases hp : pid = 0
    · subst hp; exact decDigits_zero
    · exact absurd hz (decDigits_head_ne_zero pid hp)
  all_goals
    intro hm
    exact absurd (decDigits_all_digit pid _ hm) (by decide)

/-- Witness for C1: Scenario A at pid 4242 writes the four characters
`4242`. -/
theorem new_writes_pid_decimal_witness :
    (pidfileNew allowAll "test1.pid" 4242).2 =
      Except.ok { fname := "test1.pid" } ∧
    ((pidfileNew allowAll "test1.pid" 4242).1).files "test1.pid" =
      some ['4', '2', '4', '2'] := by
  refine ⟨rfl, ?_⟩
  have h := new_writes_pid_decimal allowAll "test1.pid" 4242
    { fname := "test1.pid" } rfl
  rw [h.1]
  decide

/-- C2: when a successfully created handle is dropped and the OS permits
the removal, the file at its path no longer exists and no diagnostic is
printed. -/
theorem drop_removes_file (w : World) (path : String) (pid : Nat)
    (hf : Pidfile) (h : (pidfileNew w path pid).2 = Except.ok hf)
    (hrm : w.removeOk path = true) :
    ((pidfileDrop (pidfileNew w path pid).1 hf).1).files path = none ∧
    (pidfileDrop (pidfileNew w path pid).1 hf).2 = [] := by
  obtain ⟨-, -, hfn, hfiles, -, hrmok, -⟩ := pidfileNew_ok_facts w path pid hf h
  unfold pidfileDrop removeFile
  rw [hfn, hfiles, hrmok, hrm]
  simp [setFile]

/-- Witness for C2: dropping the handle for `test1.pid` deletes the file. -/
theorem drop_removes_file_witness :
    (pidfileNew allowAll "test1.pid" 4242).2 =
      Except.ok { fname := "test1.pid" } ∧
    allowAll.removeOk "test1.pid" = true ∧
    ((pidfileDrop (pidfileNew allowAll "test1.pid" 4242).1
      { fname := "test1.pid" }).1).files "test1.pid" = none :=
  ⟨rfl, rfl,
    (drop_removes_file allowAll "test1.pid" 4242 { fname := "test1.pid" }
      rfl rfl).1⟩

/-- C3: dropping a handle makes exactly one removal attempt (no retry),
never propagates an error (the operation is total, returning a world and
stderr lines), and on failure emits exactly one diagnostic line, none on
success. -/
theorem drop_one_attempt_no_propagation (w : World) (h : Pidfile) :
    ((pidfileDrop w h).1).log = w.log ++ [Event.removeAttempt h.fname] ∧
    (pidfileDrop w h).2.length ≤ 1 ∧
    (∀ e, (removeFile w h.fname).2 = Except.error e →
      (pidfileDrop w h).2 =
        ["Unable to remove pidfile " ++ h.fname ++ "; " ++ ioErrMsg e]) ∧
    ((removeFile w h.fname).2 = Except.ok () → (pidfileDrop w h).2 = []) := by
  refine ⟨pidfileDrop_log w h, ?_, ?_, pidfileDrop_stderr_ok w h⟩
  · unfold pidfileDrop
    cases hrf : removeFile w h.fname with
    | mk w1 r => cases r <;> simp
  · intro e he
    exact pidfileDrop_stderr_error w h e he

/-- Witness for C3: a concrete drop logs exactly one removal attempt. -/
theorem drop_one_attempt_witness :
    ((pidfileDrop allowAll { fname := "a.pid" }).1).log =
      [Event.removeAttempt "a.pid"] := by
  have h := drop_one_attempt_no_propagation allowAll { fname := "a.pid" }
  simpa using h.1

/-- Counterexample for C4: when the file is already gone, `drop` does
report the failed removal on stderr — the "file already gone" case is not
silent, contradicting the claim that it is not reported as a failure. -/
theorem drop_missing_reported_cex :
    (pidfileDrop allowAll { fname := "live.pid" }).2 ≠ [] ∧
    (pidfileDrop allowAll { fname := "live.pid" }).2 =
      ["Unable to remove pidfile live.pid; No such file or directory"] := by
  refine ⟨?_, rfl⟩
  intro hcontra
  simp [pidfileDrop, removeFile, allowAll] at hcontra

/-- C4 (amended): when the file was already removed by an external actor,
dropping the handle raises no error — the drop is total, leaves the
filesystem unchanged, and the absence is reported only as a one-line
stderr diagnostic, exactly as any other removal failure. -/
theorem drop_missing_no_raise (w : World) (h : Pidfile)
    (habs : w.files h.fname = none) :
    ((pidfileDrop w h).1).files = w.files ∧
    (pidfileDrop w h).2 =
      ["Unable to remove pidfile " ++ h.fname ++ "; " ++
        ioErrMsg IOErr.notFound] := by
  simp [pidfileDrop, removeFile, habs]

/-- Witness for C4 (amended): Scenario D, the file at `live.pid` was
externally deleted before the drop. -/
theorem drop_missing_no_raise_witness :
    allowAll.files "live.pid" = none ∧
    (pidfileDrop allowAll { fname := "live.pid" }).2 =
      ["Unable to remove pidfile live.pid; No such file or directory"] :=
  ⟨rfl, (drop_missing_no_raise allowAll { fname := "live.pid" } rfl).2⟩

/-- C5: when the target path cannot be opened for writing, `Pidfile::new`
returns the I/O error, produces no handle, and leaves every file
unchanged. -/
theorem new_open_failure_unchanged (w : World) (path : String) (pid : Nat)
    (ho : w.openOk path = false) :
    (pidfileNew w path pid).2 = Except.error IOErr.openFailed ∧
    ((pidfileNew w path pid).1).files = w.files := by
  simp [pidfileNew, fileCreate, ho]

/-- Witness for C5: Scenario C, creation inside a non-openable directory
errors and the filesystem is untouched. -/
theorem new_open_failure_unchanged_witness :
    worldNoDir.openOk "/nonexistent_dir/x.pid" = false ∧
    (pidfileNew worldNoDir "/nonexistent_dir/x.pid" 5).2 =
      Except.error IOErr.openFailed ∧
    ((pidfileNew worldNoDir "/nonexistent_dir/x.pid" 5).1).files
      "/nonexistent_dir/x.pid" = none := by
  have h := new_open_failure_unchanged worldNoDir "/nonexistent_dir/x.pid" 5 rfl
  refine ⟨rfl, h.1, ?_⟩
  rw [h.2]
  rfl

/-- C6: creating a pidfile over an existing file of any content succeeds
(given open and write permission) and the file afterwards holds exactly
the new pid digits — no residual bytes of the old content. -/
theorem new_overwrites_existing (w : World) (path : String) (pid : Nat)
    (old : List Char) (_hold : w.files path = some old)
    (ho : w.openOk path = true) (hw : w.writeOk path = true) :
    (pidfileNew w path pid).2 = Except.ok { fname := path } ∧
    ((pidfileNew w path pid).1).files path = some (decDigits pid) := by
  simp [pidfileNew, fileCreate, writeAll, setFile, ho, hw]

/-- Witness for C6: Scenario B, `stale.pid` holding nine `9`s is replaced
by the single character `7`. -/
theorem new_overwrites_existing_witness :
    worldStale.files "stale.pid" = some "999999999".toList ∧
    ((pidfileNew worldStale "stale.pid" 7).1).files "stale.pid" =
      some ['7'] := by
  refine ⟨rfl, ?_⟩
  have h := new_overwrites_existing worldStale "stale.pid" 7
    "999999999".toList rfl rfl rfl
  rw [h.2]
  decide

/-- C7: right after a successful creation (and before any other operation
touches the world) the file at the handle's path exists and its content
is the decimal string of the pid captured at construction; the digits
read back as that pid. -/
theorem live_handle_invariant (w : World) (path : String) (pid : Nat)
    (hf : Pidfile) (h : (pidfileNew w path pid).2 = Except.ok hf) :
    (((pidfileNew w path pid).1).files hf.fname).isSome = true ∧
    ((pidfileNew w path pid).1).files hf.fname = some (decDigits pid) ∧
    ofDecDigits (decDigits pid) = pid := by
  obtain ⟨-, -, hfn, hfiles, -, -, -⟩ := pidfileNew_ok_facts w path pid hf h
  rw [hfn, hfiles]
  exact ⟨rfl, rfl, ofDecDigits_decDigits pid⟩

/-- Witness for C7: a live handle for `live.pid` at pid 99 sees the file
present with content `99`. -/
theorem live_handle_invariant_witness :
    (pidfileNew allowAll "live.pid" 99).2 = Except.ok { fname := "live.pid" } ∧
    ((pidfileNew allowAll "live.pid" 99).1).files "live.pid" =
      some ['9', '9'] := by
  refine ⟨rfl, ?_⟩
  have h := live_handle_invariant allowAll "live.pid" 99
    { fname := "live.pid" } rfl
  rw [h.2.1]
  decide

/-- C8: the path stored in a successfully created handle is exactly the
path argument, and the drop's single removal attempt targets exactly that
path. -/
theorem handle_path_matches (w : World) (path : String) (pid : Nat)
    (hf : Pidfile) (h : (pidfileNew w path pid).2 = Except.ok hf) :
    hf.fname = path ∧
    ((pidfileDrop (pidfileNew w path pid).1 hf).1).log =
      ((pidfileNew w path pid).1).log ++ [Event.removeAttempt path] := by
  obtain ⟨-, -, hfn, -, -, -, -⟩ := pidfileNew_ok_facts w path pid hf h
  refine ⟨hfn, ?_⟩
  rw [pidfileDrop_log, hfn]

/-- Witness for C8: the handle made for `test2.pid` stores `test2.pid`
and its drop targets `test2.pid`. -/
theorem handle_path_matches_witness :
    (pidfileNew allowAll "test2.pid" 1).2 = Except.ok { fname := "test2.pid" } ∧
    Pidfile.fname { fname := "test2.pid" } = "test2.pid" :=
  ⟨rfl,
    (handle_path_matches allowAll "test2.pid" 1 { fname := "test2.pid" }
      rfl).1⟩

/-- C9: when the open/truncate succeeds but the write of the pid fails,
`Pidfile::new` returns the write error, produces no handle, leaves the
truncated (empty) file on disk, and attempts no cleanup — the log shows
only the open and write attempts, no removal. -/
theorem new_write_failure_truncates (w : World) (path : String) (pid : Nat)
    (ho : w.openOk path = true) (hw : w.writeOk path = false) :
    (pidfileNew w path pid).2 = Except.error IOErr.writeFailed ∧
    ((pidfileNew w path pid).1).files path = some [] ∧
    ((pidfileNew w path pid).1).log =
      w.log ++ [Event.openAttempt path, Event.writeAttempt path] := by
  simp [pidfileNew, fileCreate, writeAll, setFile, ho, hw]

/-- Witness for C9: in a world where writes fail, creation at `w.pid`
errors and leaves an empty file behind. -/
theorem new_write_failure_truncates_witness :
    worldNoWrite.openOk "w.pid" = true ∧ worldNoWrite.writeOk "w.pid" = false ∧
    (pidfileNew worldNoWrite "w.pid" 3).2 = Except.error IOErr.writeFailed ∧
    ((pidfileNew worldNoWrite "w.pid" 3).1).files "w.pid" = some [] := by
  have h := new_write_failure_truncates worldNoWrite "w.pid" 3 rfl rfl
  exact ⟨rfl, rfl, h.1, h.2.1⟩

/-- C10: the bytes written by a successful creation depend only on the
pid: two successful creations by the same process, at any two paths in
any two worlds (any prior contents), leave identical file content. -/
theorem written_bytes_depend_only_on_pid (w1 : World) (p1 : String)
    (w2 : World) (p2 : String) (pid : Nat) (h1 h2 : Pidfile)
    (e1 : (pidfileNew w1 p1 pid).2 = Except.ok h1)
    (e2 : (pidfileNew w2 p2 pid).2 = Except.ok h2) :
    ((pidfileNew w1 p1 pid).1).files p1 =
      ((pidfileNew w2 p2 pid).1).files p2 := by
  obtain ⟨-, -, -, hfiles1, -, -, -⟩ := pidfileNew_ok_facts w1 p1 pid h1 e1
  obtain ⟨-, -, -, hfiles2, -, -, -⟩ := pidfileNew_ok_facts w2 p2 pid h2 e2
  rw [hfiles1, hfiles2]

/-- Witness for C10: creating at `a.pid` over an empty world and at
`stale.pid` over a stale file, both at pid 7, leaves identical content. -/
theorem written_bytes_depend_only_on_pid_witness :
    ((pidfileNew allowAll "a.pid" 7).1).files "a.pid" =
      ((pidfileNew worldStale "stale.pid" 7).1).files "stale.pid" ∧
    ((pidfileNew allowAll "a.pid" 7).1).files "a.pid" = some ['7'] :=
  ⟨written_bytes_depend_only_on_pid allowAll "a.pid" worldStale "stale.pid" 7
      { fname := "a.pid" } { fname := "stale.pid" } rfl rfl, rfl⟩

end Qpidfile
